import Mathlib

/-
Shallow embedding of the license codec of the repository:
  src/keygen/atlassian-keygen/generate_license.py  (Format-A encoder)
  src/keygen/atlassian-keygen/decode_license.py    (Format-A decoder)
  src/keygen/atlassian-keygen/utils.py             (radix codec)
  src/keygen/gliffy-keygen/generate_license.py     (Format-B codec)

Bytes are modelled as `Nat` (each meaningful value below 256), strings as
`String`/`List Char`, machine arithmetic as explicit `% 2^w`.  The external
collaborators (zlib, SHA-1, DSA) are an abstract boundary structure; every
other primitive (base64, UTF-8, radix-31, line wrapping, Python `int`
parsing, `str.format`) is implemented concretely.
-/

/-! ### Python string primitives -/

/-- Python `unicode.isspace` on the ASCII range (the only characters the
codec ever feeds to whitespace stripping are base64/radix characters and
newlines). -/
def pyIsSpace (c : Char) : Bool :=
  c == ' ' || c == '\t' || c == '\n' || c == '\x0b' || c == '\x0c' || c == '\r'

/-- Python `str.strip()` on a character list. -/
def stripList (l : List Char) : List Char :=
  ((l.dropWhile pyIsSpace).reverse.dropWhile pyIsSpace).reverse

/-- Python `str.strip()`. -/
def pyStrip (s : String) : String := ⟨stripList s.data⟩

/-- A Python value as stored in the template-variable dictionaries: an
integer or a string. -/
inductive PyVal where
  | intV (n : Int)
  | strV (s : String)
deriving DecidableEq

/-- Python `str(value)` / `'\x7b\x7d'.format(value)` for the two value kinds:
decimal rendering (with a minus sign) for integers, identity for strings. -/
def pyStr : PyVal → String
  | .intV n => toString n
  | .strV s => s

/-- CPython 2 comparison `value > 1`: integers compare numerically, while a
string value compares greater than any int because CPython 2 orders
mismatched types by type name and the name of the string type sorts after
the name of the int type. -/
def pyGtOne : PyVal → Bool
  | .intV n => decide (1 < n)
  | .strV _ => true

/-- Value of one character as a digit, as Python `int(s, base)` reads it:
decimal digits, then letters (case-insensitive) starting at 10. -/
def digitVal (c : Char) : Option Nat :=
  if '0' ≤ c ∧ c ≤ '9' then some (c.toNat - 48)
  else if 'a' ≤ c ∧ c ≤ 'z' then some (c.toNat - 97 + 10)
  else if 'A' ≤ c ∧ c ≤ 'Z' then some (c.toNat - 65 + 10)
  else none

/-- Accumulate the digits of a non-empty digit run, most significant first,
rejecting any character that is not a digit below `base`. -/
def parseDigits (base : Nat) : List Char → Nat → Option Nat
  | [], acc => some acc
  | c :: cs, acc =>
    match digitVal c with
    | some v => if v < base then parseDigits base cs (acc * base + v) else none
    | none => none

/-- Python 2 `int(s, base)` on the strings this codec parses: surrounding
whitespace is ignored, an optional single sign is allowed, and the digit run
must be non-empty and consist of digits below `base`. -/
def parseIntBase (s : List Char) (base : Nat) : Option Int :=
  match stripList s with
  | [] => none
  | c :: rest =>
    if c = '-' then
      if rest = [] then none else (parseDigits base rest 0).map (fun n => -(n : Int))
    else if c = '+' then
      if rest = [] then none else (parseDigits base rest 0).map (fun n => (n : Int))
    else (parseDigits base (c :: rest) 0).map (fun n => (n : Int))

/-- Python `'\x7b:0\x7b\x7d\x7d'.format(n, width)`: the decimal rendering of
`n` left-padded with zeros to `width` characters. -/
def zeroPad (n : Nat) (width : Nat) : List Char :=
  List.replicate (width - (toString n).data.length) '0' ++ (toString n).data

/-- Whether an `Except` result is a success. -/
def exceptIsOk : Except ε α → Bool
  | .ok _ => true
  | .error _ => false

/-! ### Radix codec (`utils.py`) -/

/-- Fuel-based translation of the `while number > 0` loop of `_iter_digits`
(utils.py lines 48-50), which yields `alphabet[number % base]` and continues
with `number / base`.  The fuel argument only drives structural termination;
all callers pass `fuel = number`, which suffices because the loop divides
`number` by `base ≥ 2` each round.  Python raises IndexError when a digit
falls outside the alphabet; the embedding totalizes that lookup with a
default (no claim exercises an out-of-range alphabet). -/
def iterDigitsPos : Nat → Nat → Nat → List Char → List Char
  | 0, _, _, _ => []
  | _ + 1, 0, _, _ => []
  | fuel + 1, number, base, alphabet =>
    alphabet.getD (number % base) '?' :: iterDigitsPos fuel (number / base) base alphabet

/-- `_iter_digits` from utils.py: `alphabet[0]` for 0; otherwise the radix
digits of the magnitude least-significant first, followed by a `-` marker
for negative numbers. -/
def iterDigitsList (number : Int) (base : Nat) (alphabet : List Char) : List Char :=
  if number = 0 then [alphabet.getD 0 '?']
  else if number < 0 then iterDigitsPos number.natAbs number.natAbs base alphabet ++ ['-']
  else iterDigitsPos number.toNat number.toNat base alphabet

/-- `int2str` from utils.py: join the generated digits and reverse. -/
def int2str (number : Int) (base : Nat) (alphabet : List Char) : List Char :=
  (iterDigitsList number base alphabet).reverse

/-! ### RS hash (`gliffy-keygen/generate_license.py`) -/

/-- One iteration of the `rs_hash` loop: the state is the pair `(h, a)` with
`b = 378551`; `h &= 2^64 - 1` and `a &= 2^32 - 1` are written as mod of the
corresponding power of two. -/
def rsHashStep (st : Nat × Nat) (c : Char) : Nat × Nat :=
  ((st.1 * st.2 + c.toNat) % 18446744073709551616, st.2 * 378551 % 4294967296)

/-- Numeric value of `rs_hash`: fold the loop over the characters starting
from `h = 0`, `a = 63689`, then mask the accumulator to 31 bits. -/
def rsHash (text : String) : Nat :=
  (text.data.foldl rsHashStep (0, 63689)).1 % 2147483648

/-- The `rs_hash` static method returns the decimal string of the 31-bit
result. -/
def rs_hash (text : String) : String := toString (rsHash text)

/-- The documented two-phase-modulus algorithm, written independently as an
explicit recursion over the code points with accumulators `a` and `h`
(spec section 4.2). -/
def rsSpecGo : List Nat → Nat → Nat → Nat
  | [], _, h => h
  | c :: cs, a, h => rsSpecGo cs (a * 378551 % 4294967296) ((h * a + c) % 18446744073709551616)

/-- Result of the documented algorithm: run the loop from the seeds and mask
to 31 bits. -/
def rsSpec (codepoints : List Nat) : Nat := rsSpecGo codepoints 63689 0 % 2147483648

/-! ### Base64 (Python `base64.b64encode` / `base64.b64decode`) -/

/-- The standard base64 digit alphabet. -/
def B64_ALPHABET : List Char :=
  ("ABCDEFGHIJKLMNOPQRSTUVWXYZabcdefghijklmnopqrstuvwxyz0123456789+/").data

/-- Digit character for a 6-bit value (totalized with a default, never
reached for values below 64). -/
def b64chr (i : Nat) : Char := B64_ALPHABET.getD i 'A'

/-- 6-bit value of a base64 digit character. -/
def b64val (c : Char) : Option Nat := B64_ALPHABET.findIdx? (fun x => x = c)

/-- Python `base64.b64encode` over a byte list: each 3-byte group becomes 4
digits; a final 1- or 2-byte group is padded with `=`. -/
def b64encode : List Nat → List Char
  | [] => []
  | [a] => [b64chr (a / 4), b64chr (a % 4 * 16), '=', '=']
  | [a, b] => [b64chr (a / 4), b64chr (a % 4 * 16 + b / 16), b64chr (b % 16 * 4), '=']
  | a :: b :: c :: rest =>
    b64chr (a / 4) :: b64chr (a % 4 * 16 + b / 16) :: b64chr (b % 16 * 4 + c / 64) ::
      b64chr (c % 64) :: b64encode rest

/-- Python `base64.b64decode` on canonically padded input: groups of four
characters, with `=`-padding allowed only in the final group; the input
length must be a multiple of four.  (CPython's binascii is additionally
lenient about junk characters; the decoder of this repository only ever
succeeds on canonical encoder output, which this model decodes
identically.) -/
def b64decode : List Char → Option (List Nat)
  | [] => some []
  | c1 :: c2 :: c3 :: c4 :: rest =>
    if c3 = '=' ∧ c4 = '=' ∧ rest = [] then
      match b64val c1, b64val c2 with
      | some v1, some v2 => some [v1 * 4 + v2 / 16]
      | _, _ => none
    else if c4 = '=' ∧ rest = [] then
      match b64val c1, b64val c2, b64val c3 with
      | some v1, some v2, some v3 => some [v1 * 4 + v2 / 16, v2 % 16 * 16 + v3 / 4]
      | _, _, _ => none
    else
      match b64val c1, b64val c2, b64val c3, b64val c4, b64decode rest with
      | some v1, some v2, some v3, some v4, some bs =>
        some ((v1 * 4 + v2 / 16) :: (v2 % 16 * 16 + v3 / 4) :: (v3 % 4 * 64 + v4) :: bs)
      | _, _, _, _, _ => none
  | _ => none

/-! ### UTF-8 (Python `unicode.encode('utf-8')` / `str.decode('utf-8')`) -/

/-- UTF-8 encoding of one scalar value. -/
def utf8EncodeChar (c : Char) : List Nat :=
  let n := c.toNat
  if n < 128 then [n]
  else if n < 2048 then [192 + n / 64, 128 + n % 64]
  else if n < 65536 then [224 + n / 4096, 128 + n / 64 % 64, 128 + n % 64]
  else [240 + n / 262144, 128 + n / 4096 % 64, 128 + n / 64 % 64, 128 + n % 64]

/-- Python `text.encode('utf-8')` as a byte list. -/
def utf8Encode (s : String) : List Nat := (s.data.map utf8EncodeChar).flatten

/-- Whether a byte is a UTF-8 continuation byte. -/
def isCont (b : Nat) : Bool := decide (128 ≤ b ∧ b < 192)

/-- Fuel-based UTF-8 decoder (fuel bounds the number of decoded characters;
callers pass the byte count).  Lead/continuation byte shapes are checked;
the scalar is rebuilt from the payload bits.  (CPython additionally rejects
overlong and surrogate encodings; no claim depends on those inputs, and on
encoder output the two decoders agree.) -/
def utf8DecodeAux : Nat → List Nat → Option (List Char)
  | _, [] => some []
  | 0, _ :: _ => none
  | fuel + 1, b :: rest =>
    if b < 128 then (utf8DecodeAux fuel rest).map (fun cs => Char.ofNat b :: cs)
    else if b < 192 then none
    else if b < 224 then
      match rest with
      | b2 :: rest2 =>
        if isCont b2 then
          (utf8DecodeAux fuel rest2).map (fun cs => Char.ofNat ((b - 192) * 64 + (b2 - 128)) :: cs)
        else none
      | [] => none
    else if b < 240 then
      match rest with
      | b2 :: b3 :: rest3 =>
        if isCont b2 && isCont b3 then
          (utf8DecodeAux fuel rest3).map (fun cs =>
            Char.ofNat ((b - 224) * 4096 + (b2 - 128) * 64 + (b3 - 128)) :: cs)
        else none
      | _ => none
    else if b < 248 then
      match rest with
      | b2 :: b3 :: b4 :: rest4 =>
        if isCont b2 && isCont b3 && isCont b4 then
          (utf8DecodeAux fuel rest4).map (fun cs =>
            Char.ofNat ((b - 240) * 262144 + (b2 - 128) * 4096 + (b3 - 128) * 64 + (b4 - 128)) :: cs)
        else none
      | _ => none
    else none

/-- Python `data.decode('utf-8')`. -/
def utf8Decode (l : List Nat) : Option String := (utf8DecodeAux l.length l).map (fun cs => ⟨cs⟩)

/-! ### Line wrapping (`textwrap.wrap` at 76 columns) -/

/-- `ENCODED_LICENSE_LINE_LENGTH`, the wrap column of both encoders. -/
def ENCODED_LICENSE_LINE_LENGTH : Nat := 76

/-- `textwrap.wrap(s, 76)` on whitespace-free, hyphen-free input — which is
every string the two encoders wrap (base64 digits, the separator and radix
digits): the text is one long word that textwrap chops into 76-character
pieces, only the final piece shorter.  Fuel bounds the number of lines;
callers pass the character count. -/
def wrapChunksAux : Nat → List Char → List (List Char)
  | _, [] => []
  | 0, _ :: _ => []
  | fuel + 1, c :: cs =>
    (c :: cs).take ENCODED_LICENSE_LINE_LENGTH ::
      wrapChunksAux fuel ((c :: cs).drop ENCODED_LICENSE_LINE_LENGTH)

/-- The list of wrapped lines of a token. -/
def wrapChunks (l : List Char) : List (List Char) := wrapChunksAux l.length l

/-- Python `'\n'.join(lines)`. -/
def joinNL : List (List Char) → List Char
  | [] => []
  | [x] => x
  | x :: y :: rest => x ++ '\n' :: joinNL (y :: rest)

/-- Shared tail of both encoders:
`'\n'.join(textwrap.wrap(s, ENCODED_LICENSE_LINE_LENGTH)) + '\n'`. -/
def wrapLicense (l : List Char) : String := ⟨joinNL (wrapChunks l) ++ ['\n']⟩

/-! ### Last-separator search (Python `unicode.rfind`) -/

/-- Python `text.rfind(c)`: index of the last occurrence, `none` when the
character is absent (Python returns -1). -/
def rfindIdx : List Char → Char → Option Nat
  | [], _ => none
  | x :: xs, c =>
    match rfindIdx xs c with
    | some i => some (i + 1)
    | none => if x = c then some 0 else none

/-! ### Big-endian 32-bit length (Python `struct.pack/unpack('>L', n)`) -/

/-- `struct.pack('>L', n)`: four big-endian bytes (Python raises for
`n ≥ 2^32`; the embedding truncates, and the round-trip theorem carries the
bound as a hypothesis). -/
def be32pack (n : Nat) : List Nat :=
  [n / 16777216 % 256, n / 65536 % 256, n / 256 % 256, n % 256]

/-- `struct.unpack('>L', bytes)[0]` on a 4-byte list (callers check the
length first, mirroring the struct.error Python raises otherwise). -/
def be32unpack (l : List Nat) : Nat :=
  match l with
  | [a, b, c, d] => a * 16777216 + b * 65536 + c * 256 + d
  | _ => 0

/-! ### External collaborator boundary (zlib, SHA-1, DSA) -/

/-- The compression and signature collaborators of the Format-A codec
(spec section 6): `compress`/`decompress` are `zlib.compress(-, 9)` and
`zlib.decompress`, `sha1` is the digest, `sign`/`verify` are
`dsa.sign_asn1`/`dsa.verify_asn1` for one fixed keypair.  All operate on
byte lists; `decompress` is partial (zlib.error). -/
structure ExternalOps where
  compress : List Nat → List Nat
  decompress : List Nat → Option (List Nat)
  sha1 : List Nat → List Nat
  sign : List Nat → List Nat
  verify : List Nat → List Nat → Bool

/-! ### Format-A encoder (`AtlassianLicenseEncoder.encode`) -/

/-- `VERSION_NUMBER` of the encoder. -/
def VERSION_NUMBER : Nat := 2

/-- `VERSION_LENGTH` shared by encoder and decoder. -/
def VERSION_LENGTH : Nat := 3

/-- `ENCODED_LICENSE_LENGTH_BASE`. -/
def ENCODED_LICENSE_LENGTH_BASE : Nat := 31

/-- `ENCODED_LICENSE_LENGTH_ALPHABET = string.digits + string.ascii_lowercase`. -/
def ENCODED_LICENSE_LENGTH_ALPHABET : List Char :=
  ("0123456789abcdefghijklmnopqrstuvwxyz").data

/-- `LICENSE_PREFIX = (13, 14, 12, 10, 15)` as the 5 bytes prepended to the
compressed text. -/
def LICENSE_PREFIX_BYTES : List Nat := [13, 14, 12, 10, 15]

/-- `SEPARATOR = 'X'`. -/
def SEPARATOR : Char := 'X'

/-- `license_bytes = license_prefix + zlib.compress(license_text.encode('utf-8'), 9)`. -/
def licenseBytes (ops : ExternalOps) (licenseText : String) : List Nat :=
  LICENSE_PREFIX_BYTES ++ ops.compress (utf8Encode licenseText)

/-- `signature_bytes = dsa.sign_asn1(sha1(license_bytes).digest())`. -/
def signatureBytes (ops : ExternalOps) (licenseText : String) : List Nat :=
  ops.sign (ops.sha1 (licenseBytes ops licenseText))

/-- `license_base64 = b64encode(struct.pack('>L', len(license_bytes)) +
license_bytes + signature_bytes)`. -/
def licenseBase64 (ops : ExternalOps) (licenseText : String) : List Char :=
  b64encode (be32pack (licenseBytes ops licenseText).length ++
    licenseBytes ops licenseText ++ signatureBytes ops licenseText)

/-- `encoded_length = int2str(len(license_base64), 31, digits+lowercase)`. -/
def encodedLength (ops : ExternalOps) (licenseText : String) : List Char :=
  int2str ((licenseBase64 ops licenseText).length : Int)
    ENCODED_LICENSE_LENGTH_BASE ENCODED_LICENSE_LENGTH_ALPHABET

/-- `version_text = '\x7b:0\x7b\x7d\x7d'.format(VERSION_NUMBER, VERSION_LENGTH - 1)`. -/
def versionText : List Char := zeroPad VERSION_NUMBER (VERSION_LENGTH - 1)

/-- `encoded_license = ''.join([license_base64, SEPARATOR, version_text,
encoded_length])`. -/
def unwrappedLicense (ops : ExternalOps) (licenseText : String) : List Char :=
  licenseBase64 ops licenseText ++ SEPARATOR :: (versionText ++ encodedLength ops licenseText)

/-- `AtlassianLicenseEncoder.encode`: the unwrapped token, wrapped at 76
columns with a trailing newline. -/
def encodeLicense (ops : ExternalOps) (licenseText : String) : String :=
  wrapLicense (unwrappedLicense ops licenseText)

/-! ### Format-A decoder (`AtlassianLicenseDecoder`) -/

/-- Failure cases of the decoder.  All constructors except `emptyInput`
(a Python ValueError), `structFail` (an uncaught struct.error) and
`badUnicode` (an uncaught UnicodeDecodeError) correspond to a
`LicenseDecodeError` with the message noted. -/
inductive DecodeErr where
  /-- ValueError: `atlassian_license cannot be None or empty string`. -/
  | emptyInput
  /-- `license has no content`. -/
  | noContent
  /-- `cannot find separator "X"`. -/
  | noSeparator
  /-- `incomplete license - no enough data after separator`. -/
  | incomplete
  /-- `non-integer version number`. -/
  | badVersion
  /-- `unsupported license version ...`. -/
  | unsupportedVersion
  /-- `non-31-based-integer license length`. -/
  | badLength
  /-- `incorrect checksum ... (should be ...)`. -/
  | incorrectChecksum
  /-- `base64-decoding failed`. -/
  | badBase64
  /-- struct.error from `struct.unpack('>L', decoded_bytes[:4])` on fewer
  than 4 bytes (uncaught in the source). -/
  | structFail
  /-- `cannot decompress`. -/
  | cannotDecompress
  /-- UnicodeDecodeError from `.decode('utf-8')` (uncaught in the source). -/
  | badUnicode
deriving DecidableEq

/-- `_remove_whitespaces`: drop every whitespace character. -/
def removeWhitespaces (l : List Char) : List Char :=
  l.filter (fun c => !(pyIsSpace c))

/-- `_get_license_content` (decode_license.py lines 67-100): locate the last
separator, check that at least `VERSION_LENGTH` characters follow it, parse
the 2-digit version and the radix-31 length, check the length against the
separator position, and return the prefix of that length. -/
def getLicenseContent (t : List Char) : Except DecodeErr (List Char) :=
  if t = [] then .error .noContent
  else
    match rfindIdx t SEPARATOR with
    | none => .error .noSeparator
    | some pos =>
      if t.length ≤ pos + VERSION_LENGTH then .error .incomplete
      else
        match parseIntBase ((t.drop (pos + 1)).take (VERSION_LENGTH - 1)) 10 with
        | none => .error .badVersion
        | some version =>
          if ¬(version = 1 ∨ version = 2) then .error .unsupportedVersion
          else
            match parseIntBase (t.drop (pos + VERSION_LENGTH)) ENCODED_LICENSE_LENGTH_BASE with
            | none => .error .badLength
            | some licenseLength =>
              if (pos : Int) ≠ licenseLength then .error .incorrectChecksum
              else .ok (t.take pos)
              -- the source slices `[:license_length]`; at this point
              -- `license_length = pos` has just been checked

/-- `_split_license_content`: base64-decode the content, read the big-endian
length of the compressed part, split it from the signature. -/
def splitLicenseContent (content : List Char) : Except DecodeErr (List Nat × List Nat) :=
  match b64decode content with
  | none => .error .badBase64
  | some bytes =>
    if bytes.length < 4 then .error .structFail
    else
      let textLength := be32unpack (bytes.take 4)
      .ok ((bytes.drop 4).take textLength, (bytes.drop 4).drop textLength)

/-- `AtlassianLicenseDecoder.decode`: strip whitespace, extract the content,
split compressed text from signature, optionally verify, strip the 5-byte
tag and inflate.  `hasPublicKey` models a non-empty `public_key_path`. -/
def decodeLicense (ops : ExternalOps) (hasPublicKey : Bool) (needVerify : Bool)
    (input : String) : Except DecodeErr (String × Option Bool) :=
  if input = "" then .error .emptyInput
  else
    let t := removeWhitespaces input.data
    match getLicenseContent t with
    | .error e => .error e
    | .ok content =>
      match splitLicenseContent content with
      | .error e => .error e
      | .ok (compressedLicense, licenseSignature) =>
        let verified : Option Bool :=
          if needVerify && hasPublicKey then
            some (ops.verify (ops.sha1 compressedLicense) licenseSignature)
          else none
        match ops.decompress (compressedLicense.drop LICENSE_PREFIX_BYTES.length) with
        | none => .error .cannotDecompress
        | some data =>
          match utf8Decode data with
          | none => .error .badUnicode
          | some text => .ok (text, verified)

/-! ### Python `str.format` over the template dictionaries -/

/-- One parsed piece of a format template: a literal run or a `\x7bname\x7d`
replacement field. -/
inductive FmtItem where
  | lit (s : String)
  | field (name : String)
deriving DecidableEq

/-- Substitute a parsed template: literals pass through, each field is
looked up and rendered with `str(...)`; a missing name is the Python
KeyError carried as the error value. -/
def pyFormat : List FmtItem → (String → Option PyVal) → Except String String
  | [], _ => .ok ""
  | .lit s :: rest, lookup => (pyFormat rest lookup).map (fun t => s ++ t)
  | .field f :: rest, lookup =>
    match lookup f with
    | some v => (pyFormat rest lookup).map (fun t => pyStr v ++ t)
    | none => .error f

/-- Read a replacement-field name up to the closing brace; returns the name
and the rest of the input, or `none` when the brace is never closed (a
Python ValueError). -/
def readFieldName : List Char → Option (String × List Char)
  | [] => none
  | c :: cs =>
    if c = '\x7d' then some ("", cs)
    else
      match readFieldName cs with
      | some (name, rest) => some (⟨c :: name.data⟩, rest)
      | none => none

/-- Fuel-based parser for the subset of Python format strings these
templates use: doubled braces are literal braces, `\x7bname\x7d` is a field,
everything else is literal text (the source templates use no conversion or
format-spec syntax).  Fuel bounds the number of items; callers pass the
character count. -/
def parseFmtAux : Nat → List Char → Option (List FmtItem)
  | _, [] => some []
  | 0, _ :: _ => none
  | fuel + 1, c :: cs =>
    if c = '\x7b' then
      match cs with
      | '\x7b' :: cs2 => (parseFmtAux fuel cs2).map (fun items => FmtItem.lit ("\x7b") :: items)
      | _ =>
        match readFieldName cs with
        | some (name, rest) => (parseFmtAux fuel rest).map (fun items => FmtItem.field name :: items)
        | none => none
    else if c = '\x7d' then
      match cs with
      | '\x7d' :: cs2 => (parseFmtAux fuel cs2).map (fun items => FmtItem.lit ("\x7d") :: items)
      | _ => none
    else (parseFmtAux fuel cs).map (fun items => FmtItem.lit (⟨[c]⟩) :: items)

/-- Parse a whole format template. -/
def parseFmt (l : List Char) : Option (List FmtItem) := parseFmtAux l.length l

/-! ### Format-B codec (`GliffyLicenseGenerator`) -/

/-- Key template `'\x7bquantity_users\x7d\x7blicense_type\x7d\x7bname\x7d\x7borganisation\x7d\x7bexpiration_date\x7d\x7bnode_part\x7d'`,
already split into its replacement fields. -/
def KEY_TEMPLATE_1 : List FmtItem :=
  [.field ("quantity_users"), .field ("license_type"), .field ("name"),
   .field ("organisation"), .field ("expiration_date"), .field ("node_part")]

/-- Key template `'\x7borganisation\x7d\x7bquantity_users\x7d\x7bnode_part\x7d\x7blicense_type\x7d\x7bexpiration_date\x7d\x7bname\x7d'`. -/
def KEY_TEMPLATE_2 : List FmtItem :=
  [.field ("organisation"), .field ("quantity_users"), .field ("node_part"),
   .field ("license_type"), .field ("expiration_date"), .field ("name")]

/-- Key template `'\x7bnode_part\x7d\x7borganisation\x7d\x7bname\x7d\x7bquantity_users\x7d\x7blicense_type\x7d\x7bexpiration_date\x7d'`. -/
def KEY_TEMPLATE_3 : List FmtItem :=
  [.field ("node_part"), .field ("organisation"), .field ("name"),
   .field ("quantity_users"), .field ("license_type"), .field ("expiration_date")]

/-- Key template `'\x7bname\x7d\x7bexpiration_date\x7d\x7bnode_part\x7d\x7borganisation\x7d\x7blicense_type\x7d\x7bquantity_users\x7d'`. -/
def KEY_TEMPLATE_4 : List FmtItem :=
  [.field ("name"), .field ("expiration_date"), .field ("node_part"),
   .field ("organisation"), .field ("license_type"), .field ("quantity_users")]

/-- The `node_part` local of `_calculate_license_key`:
`nodes_count = variables.get('quantity_nodes', 0)`, then `str(nodes_count)`
when the value compares greater than 1, else the empty string. -/
def gliffyNodePart (vars : String → Option PyVal) : String :=
  if pyGtOne ((vars ("quantity_nodes")).getD (.intV 0))
  then pyStr ((vars ("quantity_nodes")).getD (.intV 0)) else ""

/-- The keyword dictionary of `t.format(node_part=node_part, **variables)`
once the call is admitted (the dictionary does not itself bind
`node_part`, see `gliffyFormatCall`): `node_part` is bound, everything
else resolves in the variable dictionary. -/
def gliffyKeyLookup (vars : String → Option PyVal) : String → Option PyVal :=
  fun k => if k = "node_part" then some (.strV (gliffyNodePart vars)) else vars k

/-- Failures of `_calculate_license_key`. -/
inductive KeyDeriveErr where
  /-- Python KeyError for this missing variable name (caught by `generate`
  and rewrapped as `LicenseGenerationError`). -/
  | missingKey (k : String)
  /-- `TypeError: format() got multiple values for keyword argument
  'node_part'`: CPython raises this while building the call
  `t.format(node_part=node_part, **variables)` when `variables` itself
  binds `node_part`, before any formatting happens (uncaught in the
  source, so it propagates past `generate`). -/
  | duplicateNodePart
deriving DecidableEq

/-- One call `t.format(node_part=node_part, **variables)`: the duplicate
keyword check fires first (a TypeError at call-building time), then the
template is formatted with `node_part` bound and the variables passed
through. -/
def gliffyFormatCall (items : List FmtItem) (vars : String → Option PyVal) :
    Except KeyDeriveErr String :=
  if (vars ("node_part")).isSome then .error .duplicateNodePart
  else
    match pyFormat items (gliffyKeyLookup vars) with
    | .error k => .error (.missingKey k)
    | .ok s => .ok s

/-- `_calculate_license_key`: each of the four templates is formatted with
`node_part` bound and the variables passed through, hashed with `rs_hash`,
and the four decimal strings are joined with dashes. -/
def calculateLicenseKey (vars : String → Option PyVal) : Except KeyDeriveErr String := do
  let s1 ← gliffyFormatCall KEY_TEMPLATE_1 vars
  let s2 ← gliffyFormatCall KEY_TEMPLATE_2 vars
  let s3 ← gliffyFormatCall KEY_TEMPLATE_3 vars
  let s4 ← gliffyFormatCall KEY_TEMPLATE_4 vars
  pure (String.intercalate ("-") [rs_hash s1, rs_hash s2, rs_hash s3, rs_hash s4])

/-- `LICENSE_TEMPLATE` of `GliffyLicenseGenerator`, exactly the source
string (doubled braces are Python escapes for literal braces). -/
def LICENSE_TEMPLATE : String :=
  "\x7b\x7b\"licenseVersion\":{license_version},\"licenseKey\":\"{license_key}\",\"licensedSystem\":\"{name}\",\"licensedTo\":\"{organisation}\",\"licenseType\":\"{license_type}\",\"quantityUsers\":{quantity_users},\"quantityNodes\":{quantity_nodes},\"expirationDate\":\"{expiration_date}\"\x7d\x7d"

/-- `LICENSE_TYPE` default. -/
def GLIFFY_LICENSE_TYPE : String := "COMMERCIAL_ENTERPRISE"

/-- `EXPIRATION_DATE` default (mm/dd/YY). -/
def GLIFFY_EXPIRATION_DATE : String := "12/31/32"

/-- `generate_default_variables` of `GliffyLicenseGenerator`: version 2,
commercial-enterprise type, -1 users and nodes, fixed expiration date. -/
def gliffyDefaultVariables : String → Option PyVal := fun k =>
  if k = "license_version" then some (.intV 2)
  else if k = "license_type" then some (.strV GLIFFY_LICENSE_TYPE)
  else if k = "quantity_users" then some (.intV (-1))
  else if k = "quantity_nodes" then some (.intV (-1))
  else if k = "expiration_date" then some (.strV GLIFFY_EXPIRATION_DATE)
  else none

/-- `KNOWN_PRODUCTS.get(product, None)`. -/
def KNOWN_PRODUCTS (product : String) : Option String :=
  if product = "jira" then some ("Gliffy JIRA Plugin")
  else if product = "confluence" then some ("Gliffy Confluence Plugin")
  else none

/-- Dictionary update of one key. -/
def setVar (vars : String → Option PyVal) (k : String) (v : PyVal) : String → Option PyVal :=
  fun q => if q = k then some v else vars q

/-- `template = self._template or custom_template or ''` — Python `or`
returns the first truthy operand, an empty or absent string being falsy;
`self._template` is always `LICENSE_TEMPLATE`. -/
def selectTemplate (customTemplate : Option String) : String :=
  if LICENSE_TEMPLATE ≠ "" then LICENSE_TEMPLATE
  else
    match customTemplate with
    | some t => if t ≠ "" then t else ""
    | none => ""

/-- Failures of `GliffyLicenseGenerator.generate`. -/
inductive GliffyErr where
  /-- `no license template defined`. -/
  | noTemplate
  /-- `missing required template variable to generate license key` wrapping
  the KeyError for this name. -/
  | missingKeyVar (k : String)
  /-- `missing required template variable to generate license content`
  wrapping the KeyError for this name. -/
  | missingContentVar (k : String)
  /-- ValueError from a malformed format template (uncaught in the
  source). -/
  | badTemplate
  /-- TypeError for a duplicate `node_part` keyword during key derivation
  (uncaught in the source — only KeyError is caught — so it propagates). -/
  | duplicateKeyword
deriving DecidableEq

/-- `GliffyLicenseGenerator.generate`: select and strip the template, build
the variable dictionary (defaults, product name when known, organisation
when non-empty, caller overrides), derive `license_key`, then substitute
into the template. -/
def gliffyGenerate (product organisation : String) (customVariables : List (String × PyVal))
    (customTemplate : Option String) : Except GliffyErr String :=
  let template := pyStrip (selectTemplate customTemplate)
  if template = "" then .error .noTemplate
  else
    let vars0 := gliffyDefaultVariables
    let vars1 :=
      match KNOWN_PRODUCTS product with
      | some productName => setVar vars0 ("name") (.strV productName)
      | none => vars0
    let vars2 := if organisation ≠ "" then setVar vars1 ("organisation") (.strV organisation) else vars1
    let vars3 := customVariables.foldl (fun acc e => setVar acc e.1 e.2) vars2
    match calculateLicenseKey vars3 with
    | .error (.missingKey k) => .error (.missingKeyVar k)
    | .error .duplicateNodePart => .error .duplicateKeyword
    | .ok licenseKey =>
      let vars4 := setVar vars3 ("license_key") (.strV licenseKey)
      match parseFmt template.data with
      | none => .error .badTemplate
      | some items =>
        match pyFormat items vars4 with
        | .error k => .error (.missingContentVar k)
        | .ok s => .ok s

/-- `GliffyLicenseGenerator.encode`: base64 of the UTF-8 bytes, wrapped at
76 columns with a trailing newline. -/
def gliffyEncode (licenseText : String) : String :=
  wrapLicense (b64encode (utf8Encode licenseText))

/-! ### Concrete instances used by witnesses and counterexamples -/

/-- A degenerate but spec-conforming collaborator bundle: identity
compression, empty digests and signatures, verification that accepts the
signature the signer produced.  It satisfies the boundary contracts of spec
section 6 and lets the whole codec pipeline run to a value. -/
def trivialOps : ExternalOps where
  compress := fun l => l
  decompress := fun l => some l
  sha1 := fun _ => []
  sign := fun _ => []
  verify := fun _ _ => true

/-- A variable dictionary carrying the five fields the key templates format
but no `quantity_nodes`. -/
def varsNoNodes : String → Option PyVal := fun k =>
  if k = "quantity_users" then some (.intV 10)
  else if k = "license_type" then some (.strV ("COMMERCIAL"))
  else if k = "name" then some (.strV ("Gliffy JIRA Plugin"))
  else if k = "organisation" then some (.strV ("Acme"))
  else if k = "expiration_date" then some (.strV ("12/31/32"))
  else none

/-- The empty variable dictionary. -/
def varsEmpty : String → Option PyVal := fun _ => none

/-- A variable dictionary carrying all six license fields and additionally
binding `node_part` itself (reachable in the program via
`-v node_part=boom`). -/
def varsWithNodePart : String → Option PyVal := fun k =>
  if k = "quantity_users" then some (.intV 10)
  else if k = "license_type" then some (.strV ("COMMERCIAL"))
  else if k = "name" then some (.strV ("Gliffy JIRA Plugin"))
  else if k = "organisation" then some (.strV ("Acme"))
  else if k = "expiration_date" then some (.strV ("12/31/32"))
  else if k = "quantity_nodes" then some (.intV 5)
  else if k = "node_part" then some (.strV ("boom"))
  else none

/-- A complete variable dictionary for the key-derivation witness. -/
def varsComplete : String → Option PyVal := fun k =>
  if k = "quantity_users" then some (.intV (-1))
  else if k = "license_type" then some (.strV ("COMMERCIAL_ENTERPRISE"))
  else if k = "name" then some (.strV ("Gliffy Confluence Plugin"))
  else if k = "organisation" then some (.strV ("Acme Corp"))
  else if k = "expiration_date" then some (.strV ("12/31/32"))
  else if k = "quantity_nodes" then some (.intV 5)
  else none

/-! ## Lemmas about the radix codec -/

/-- With enough fuel, the digit loop yields exactly the base-`b` digit
list of `n`, least significant first, looked up in the alphabet. -/
theorem iterDigitsPos_eq_digits (base : Nat) (hb : 2 ≤ base) (α : List Char) :
    ∀ (fuel n : Nat), n ≤ fuel →
      iterDigitsPos fuel n base α = (Nat.digits base n).map (fun d => α.getD d '?') := by
  intro fuel
  induction fuel with
  | zero =>
    intro n hn
    have hz : n = 0 := by omega
    subst hz
    simp [iterDigitsPos]
  | succ fuel ih =>
    intro n hn
    match n with
    | 0 => simp [iterDigitsPos]
    | m + 1 =>
      have hdiv : (m + 1) / base ≤ fuel := by
        have := Nat.div_lt_self (show 0 < m + 1 by omega) (show 1 < base by omega)
        omega
      show α.getD ((m + 1) % base) '?' :: iterDigitsPos fuel ((m + 1) / base) base α =
        (Nat.digits base (m + 1)).map (fun d => α.getD d '?')
      rw [ih _ hdiv, Nat.digits_def' (show 1 < base by omega) (Nat.succ_pos m), List.map_cons]

/-- Reading the digit list back most-significant first recovers the
number. -/
theorem foldl_digits_reverse (base : Nat) (hb : 2 ≤ base) :
    ∀ n : Nat, List.foldl (fun a d => a * base + d) 0 ((Nat.digits base n).reverse) = n := by
  intro n
  induction n using Nat.strong_induction_on with
  | _ n ih =>
    match n with
    | 0 => simp
    | m + 1 =>
      rw [Nat.digits_def' (show 1 < base by omega) (Nat.succ_pos m), List.reverse_cons,
        List.foldl_append]
      simp only [List.foldl_cons, List.foldl_nil]
      rw [ih ((m + 1) / base) (Nat.div_lt_self (Nat.succ_pos m) (by omega))]
      rw [Nat.mul_comm]
      exact Nat.div_add_mod _ _

/-- Facts about the first 31 symbols of the length alphabet: each parses
back to its own value and is neither a sign, the separator, nor
whitespace. -/
theorem alph31_facts : ∀ d, d < 31 →
    digitVal (ENCODED_LICENSE_LENGTH_ALPHABET.getD d '?') = some d ∧
    ENCODED_LICENSE_LENGTH_ALPHABET.getD d '?' ≠ '-' ∧
    ENCODED_LICENSE_LENGTH_ALPHABET.getD d '?' ≠ '+' ∧
    ENCODED_LICENSE_LENGTH_ALPHABET.getD d '?' ≠ SEPARATOR ∧
    pyIsSpace (ENCODED_LICENSE_LENGTH_ALPHABET.getD d '?') = false := by decide

/-- `parseDigits` over alphabet-rendered digits is the
most-significant-first fold. -/
theorem parseDigits_map_alph : ∀ (ds : List Nat), (∀ d ∈ ds, d < 31) → ∀ acc,
    parseDigits 31 (ds.map (fun d => ENCODED_LICENSE_LENGTH_ALPHABET.getD d '?')) acc =
      some (List.foldl (fun a d => a * 31 + d) acc ds) := by
  intro ds
  induction ds with
  | nil => intro _ acc; rfl
  | cons d ds ih =>
    intro h acc
    have hd : d < 31 := h d (by simp)
    simp only [List.map_cons, parseDigits, (alph31_facts d hd).1]
    rw [if_pos hd]
    exact ih (fun x hx => h x (by simp [hx])) _

/-- Stripping changes nothing on a whitespace-free string. -/
theorem stripList_eq_self (l : List Char) (h : ∀ c ∈ l, pyIsSpace c = false) :
    stripList l = l := by
  unfold stripList
  have h1 : l.dropWhile pyIsSpace = l := by
    cases l with
    | nil => rfl
    | cons c cs => rw [List.dropWhile_cons, h c (by simp)]; simp
  rw [h1]
  have h2 : l.reverse.dropWhile pyIsSpace = l.reverse := by
    cases hr : l.reverse with
    | nil => rfl
    | cons c cs =>
      have hc : c ∈ l := by
        rw [← List.mem_reverse, hr]
        simp
      rw [List.dropWhile_cons, h c hc]
      simp
  rw [h2, List.reverse_reverse]

/-- Round-trip of the length field: parsing the radix-31 rendering of a
length recovers the length. -/
theorem parse_int2str_31 (n : Nat) :
    parseIntBase (int2str (n : Int) ENCODED_LICENSE_LENGTH_BASE ENCODED_LICENSE_LENGTH_ALPHABET)
      ENCODED_LICENSE_LENGTH_BASE = some (n : Int) := by
  rcases Nat.eq_zero_or_pos n with h0 | hpos
  · subst h0; decide
  · have hne : ¬((n : Int) = 0) := by omega
    have hneg : ¬((n : Int) < 0) := by omega
    unfold int2str iterDigitsList ENCODED_LICENSE_LENGTH_BASE
    rw [if_neg hne, if_neg hneg, Int.toNat_natCast]
    rw [iterDigitsPos_eq_digits 31 (by omega) _ n n le_rfl, ← List.map_reverse]
    have hlt : ∀ d ∈ (Nat.digits 31 n).reverse, d < 31 := fun d hd =>
      Nat.digits_lt_base (by omega) (List.mem_reverse.mp hd)
    cases hds : (Nat.digits 31 n).reverse with
    | nil =>
      exfalso
      have : Nat.digits 31 n ≠ [] := Nat.digits_ne_nil_iff_ne_zero.mpr (by omega)
      simp_all
    | cons d ds =>
      have hd31 : d < 31 := hlt d (by rw [hds]; simp)
      have hnospace : ∀ c ∈ (d :: ds).map (fun d => ENCODED_LICENSE_LENGTH_ALPHABET.getD d '?'),
          pyIsSpace c = false := by
        intro c hc
        obtain ⟨x, hx, rfl⟩ := List.mem_map.mp hc
        exact (alph31_facts x (by rw [← hds] at hx; exact hlt x hx)).2.2.2.2
      unfold parseIntBase
      rw [stripList_eq_self _ hnospace]
      simp only [List.map_cons]
      rw [if_neg ?hm, if_neg ?hp]
      case hm => exact fun hcontra => (alph31_facts d hd31).2.1 hcontra
      case hp => exact fun hcontra => (alph31_facts d hd31).2.2.1 hcontra
      have hcast : (ENCODED_LICENSE_LENGTH_ALPHABET.getD d '?' ::
          List.map (fun d => ENCODED_LICENSE_LENGTH_ALPHABET.getD d '?') ds) =
          (d :: ds).map (fun d => ENCODED_LICENSE_LENGTH_ALPHABET.getD d '?') := rfl
      rw [hcast, parseDigits_map_alph (d :: ds) (by rw [← hds]; exact hlt) 0, ← hds,
        foldl_digits_reverse 31 (by omega) n]
      rfl

/-- C8: for every base in 2..=36 and alphabet of length at least the base,
`int2str` encodes 0 as the alphabet's first symbol, encodes every negative
integer as a minus sign followed by the encoding of its magnitude, and
encodes every positive integer as the reversed least-significant-first
divmod digit accumulation. -/
theorem claim8_int2str (b : Nat) (α : List Char) (hb2 : 2 ≤ b) (hb36 : b ≤ 36)
    (hα : b ≤ α.length) :
    int2str 0 b α = [α.getD 0 '?'] ∧
    (∀ n : Int, 0 < n → int2str (-n) b α = '-' :: int2str n b α) ∧
    (∀ n : Int, 0 < n →
      int2str n b α = ((Nat.digits b n.toNat).map (fun d => α.getD d '?')).reverse) := by
  refine ⟨by simp [int2str, iterDigitsList], ?_, ?_⟩
  · intro n hn
    have h1 : ¬(-n = 0) := by omega
    have h2 : -n < 0 := by omega
    have h3 : ¬(n = 0) := by omega
    have h4 : ¬(n < 0) := by omega
    unfold int2str iterDigitsList
    rw [if_neg h1, if_pos h2, if_neg h3, if_neg h4, List.reverse_append]
    rw [show (-n).natAbs = n.toNat by omega]
    rfl
  · intro n hn
    have h3 : ¬(n = 0) := by omega
    have h4 : ¬(n < 0) := by omega
    unfold int2str iterDigitsList
    rw [if_neg h3, if_neg h4,
      iterDigitsPos_eq_digits b hb2 α n.toNat n.toNat le_rfl]

/-- Witness for C8 at base 31 and the length alphabet: the negative case
evaluated at -5. -/
theorem claim8_int2str_witness :
    int2str (-5) 31 ENCODED_LICENSE_LENGTH_ALPHABET =
      '-' :: int2str 5 31 ENCODED_LICENSE_LENGTH_ALPHABET :=
  (claim8_int2str 31 ENCODED_LICENSE_LENGTH_ALPHABET (by decide) (by decide)
    (by decide)).2.1 5 (by decide)

/-- The spec-side recursion agrees with the folded source loop at every
pair of accumulators. -/
theorem rsSpecGo_foldl : ∀ (l : List Char) (a h : Nat),
    rsSpecGo (l.map Char.toNat) a h = (l.foldl rsHashStep (h, a)).1 := by
  intro l
  induction l with
  | nil => intro a h; rfl
  | cons c cs ih =>
    intro a h
    simp only [List.map_cons, rsSpecGo, List.foldl_cons]
    exact ih _ _

/-- C3: `rs_hash` computes exactly the documented two-phase-modulus
algorithm (64-bit accumulator for h, 32-bit accumulator for a, final 31-bit
mask), so the result is below 2^31, and the hash of the empty string is
0. -/
theorem claim3_rs_hash (s : String) :
    rsHash s = rsSpec (s.data.map Char.toNat) ∧ rsHash s < 2147483648 ∧
    rsHash ("") = 0 ∧ rs_hash s = toString (rsHash s) := by
  refine ⟨?_, Nat.mod_lt _ (by omega), rfl, rfl⟩
  unfold rsHash rsSpec
  rw [rsSpecGo_foldl]

/-! ## Lemmas about line wrapping -/

/-- The wrapped chunks concatenate back to the original characters. -/
theorem wrapChunksAux_flatten : ∀ (fuel : Nat) (l : List Char), l.length ≤ fuel →
    (wrapChunksAux fuel l).flatten = l := by
  intro fuel
  induction fuel with
  | zero =>
    intro l hl
    match l with
    | [] => rfl
  | succ fuel ih =>
    intro l hl
    match l with
    | [] => rfl
    | c :: cs =>
      show ((c :: cs).take ENCODED_LICENSE_LINE_LENGTH ::
        wrapChunksAux fuel ((c :: cs).drop ENCODED_LICENSE_LINE_LENGTH)).flatten = c :: cs
      rw [List.flatten_cons, ih _ ?hfuel, List.take_append_drop]
      case hfuel =>
        rw [List.length_drop]
        simp only [ENCODED_LICENSE_LINE_LENGTH]
        simp only [List.length_cons] at hl ⊢
        omega

/-- The number of wrapped lines is the length divided by 76, rounded up. -/
theorem wrapChunksAux_length : ∀ (fuel : Nat) (l : List Char), l.length ≤ fuel →
    (wrapChunksAux fuel l).length = (l.length + 75) / 76 := by
  intro fuel
  induction fuel with
  | zero =>
    intro l hl
    match l with
    | [] => rfl
  | succ fuel ih =>
    intro l hl
    match l with
    | [] => rfl
    | c :: cs =>
      show ((c :: cs).take ENCODED_LICENSE_LINE_LENGTH ::
        wrapChunksAux fuel ((c :: cs).drop ENCODED_LICENSE_LINE_LENGTH)).length =
        ((c :: cs).length + 75) / 76
      have hfuel : ((c :: cs).drop ENCODED_LICENSE_LINE_LENGTH).length ≤ fuel := by
        rw [List.length_drop]
        simp only [ENCODED_LICENSE_LINE_LENGTH]
        simp only [List.length_cons] at hl ⊢
        omega
      rw [List.length_cons, ih _ hfuel, List.length_drop]
      simp only [ENCODED_LICENSE_LINE_LENGTH, List.length_cons]
      omega

/-- Every wrapped line has at most 76 characters. -/
theorem wrapChunksAux_le : ∀ (fuel : Nat) (l : List Char) (c : List Char),
    c ∈ wrapChunksAux fuel l → c.length ≤ 76 := by
  intro fuel
  induction fuel with
  | zero =>
    intro l c hc
    match l with
    | [] => simp [wrapChunksAux] at hc
  | succ fuel ih =>
    intro l c hc
    match l with
    | [] => simp [wrapChunksAux] at hc
    | x :: xs =>
      have hc2 : c ∈ ((x :: xs).take ENCODED_LICENSE_LINE_LENGTH ::
          wrapChunksAux fuel ((x :: xs).drop ENCODED_LICENSE_LINE_LENGTH)) := hc
      rcases List.mem_cons.mp hc2 with h | h
      · subst h
        rw [List.length_take]
        simp [ENCODED_LICENSE_LINE_LENGTH]
      · exact ih _ _ h

/-- Every wrapped line except possibly the final one has exactly 76
characters. -/
theorem wrapChunksAux_full : ∀ (fuel : Nat) (l : List Char) (i : Nat),
    i + 1 < (wrapChunksAux fuel l).length →
    ((wrapChunksAux fuel l).getD i []).length = 76 := by
  intro fuel
  induction fuel with
  | zero =>
    intro l i hi
    match l with
    | [] => simp [wrapChunksAux] at hi
  | succ fuel ih =>
    intro l i hi
    match l with
    | [] => simp [wrapChunksAux] at hi
    | x :: xs =>
      have hshape : wrapChunksAux (fuel + 1) (x :: xs) =
          (x :: xs).take ENCODED_LICENSE_LINE_LENGTH ::
            wrapChunksAux fuel ((x :: xs).drop ENCODED_LICENSE_LINE_LENGTH) := rfl
      rw [hshape] at hi ⊢
      match i with
      | 0 =>
        rw [List.getD_cons_zero, List.length_take]
        rw [List.length_cons] at hi
        have htail : wrapChunksAux fuel ((x :: xs).drop ENCODED_LICENSE_LINE_LENGTH) ≠ [] := by
          intro hemp
          rw [hemp] at hi
          simp at hi
        have hdrop : (x :: xs).drop ENCODED_LICENSE_LINE_LENGTH ≠ [] := by
          intro hemp
          apply htail
          rw [hemp]
          match fuel with
          | 0 => rfl
          | _ + 1 => rfl
        have hlen : ENCODED_LICENSE_LINE_LENGTH < (x :: xs).length := by
          by_contra hle
          exact hdrop (List.drop_eq_nil_iff.mpr (by omega))
        simp only [ENCODED_LICENSE_LINE_LENGTH] at hlen ⊢
        omega
      | j + 1 =>
        rw [List.getD_cons_succ]
        apply ih
        rw [List.length_cons] at hi
        omega

/-- Filtering a newline-joined list with a predicate false on newlines is
filtering the pieces. -/
theorem joinNL_filter (p : Char → Bool) (hnl : p '\n' = false) :
    ∀ L, (joinNL L).filter p = (L.map (fun l => l.filter p)).flatten
  | [] => rfl
  | [x] => by
    show x.filter p = x.filter p ++ [].flatten
    simp
  | x :: y :: L => by
    show (x ++ '\n' :: joinNL (y :: L)).filter p = _
    rw [List.filter_append, List.filter_cons, hnl]
    simp only [Bool.false_eq_true, if_false]
    rw [joinNL_filter p hnl (y :: L)]
    simp [List.flatten_cons]

/-- Stripping whitespace from a wrapped token recovers the unwrapped
characters, provided none of them is whitespace. -/
theorem removeWhitespaces_wrapLicense (l : List Char) (h : ∀ c ∈ l, pyIsSpace c = false) :
    removeWhitespaces (wrapLicense l).data = l := by
  unfold removeWhitespaces wrapLicense
  show (joinNL (wrapChunks l) ++ ['\n']).filter (fun c => !(pyIsSpace c)) = l
  rw [List.filter_append, joinNL_filter _ (by decide)]
  have hflat : (wrapChunks l).flatten = l := wrapChunksAux_flatten _ _ le_rfl
  have hmap : (wrapChunks l).map (fun ck => ck.filter (fun c => !(pyIsSpace c))) =
      (wrapChunks l).map id := by
    apply List.map_congr_left
    intro ck hck
    apply List.filter_eq_self.mpr
    intro c hc
    have hcl : c ∈ l := by
      rw [← hflat]
      exact List.mem_flatten.mpr ⟨ck, hck, hc⟩
    rw [h c hcl]
    rfl
  rw [hmap, List.map_id, hflat]
  have hnlf : List.filter (fun c => !(pyIsSpace c)) ['\n'] = [] := by decide
  rw [hnlf, List.append_nil]

/-- C9: both encoders wrap the unwrapped token at exactly 76 characters per
line: an n-character unwrapped string yields ceil(n/76) lines, each at most
76 characters, every non-final line exactly 76 characters, the lines
concatenate back to the token, and the output always ends in a newline. -/
theorem claim9_line_wrap :
    (∀ l : List Char,
      (wrapChunks l).length = (l.length + 75) / 76 ∧
      (∀ c ∈ wrapChunks l, c.length ≤ 76) ∧
      (∀ i, i + 1 < (wrapChunks l).length → ((wrapChunks l).getD i []).length = 76) ∧
      (wrapChunks l).flatten = l ∧
      (wrapLicense l).data = joinNL (wrapChunks l) ++ ['\n'] ∧
      (wrapLicense l).data.getLast? = some ('\n')) ∧
    (∀ licenseText, gliffyEncode licenseText = wrapLicense (b64encode (utf8Encode licenseText))) ∧
    (∀ (ops : ExternalOps) (licenseText : String),
      encodeLicense ops licenseText = wrapLicense (unwrappedLicense ops licenseText)) := by
  refine ⟨?_, fun _ => rfl, fun _ _ => rfl⟩
  intro l
  refine ⟨wrapChunksAux_length _ _ le_rfl, fun c hc => wrapChunksAux_le _ _ c hc,
    fun i hi => wrapChunksAux_full _ _ i hi, wrapChunksAux_flatten _ _ le_rfl, rfl, ?_⟩
  show (joinNL (wrapChunks l) ++ ['\n']).getLast? = some ('\n')
  exact List.getLast?_concat _

/-! ## Lemmas about base64 -/

/-- A defaulted lookup stays inside the list when the default is a
member. -/
theorem getD_mem_of_default_mem (l : List Char) (i : Nat) (d : Char) (hd : d ∈ l) :
    l.getD i d ∈ l := by
  rw [List.getD_eq_getElem?_getD]
  cases hx : l[i]? with
  | none => simpa using hd
  | some c =>
    have hc : c ∈ l := List.getElem?_mem hx
    simpa using hc

/-- Every base64 digit character is non-whitespace and distinct from the
padding character. -/
theorem b64_char_facts : ∀ c ∈ B64_ALPHABET, pyIsSpace c = false ∧ c ≠ '=' := by decide

/-- The digit rendering never produces whitespace. -/
theorem b64chr_not_space (i : Nat) : pyIsSpace (b64chr i) = false :=
  (b64_char_facts _ (getD_mem_of_default_mem _ _ _ (by decide))).1

/-- The digit rendering never produces the padding character. -/
theorem b64chr_ne_pad (i : Nat) : b64chr i ≠ '=' :=
  (b64_char_facts _ (getD_mem_of_default_mem _ _ _ (by decide))).2

/-- Each 6-bit value parses back from its digit character. -/
theorem b64val_b64chr : ∀ v, v < 64 → b64val (b64chr v) = some v := by decide

/-- Base64 decoding inverts base64 encoding on byte lists. -/
theorem b64_roundtrip : ∀ (l : List Nat), (∀ b ∈ l, b < 256) → b64decode (b64encode l) = some l
  | [], _ => rfl
  | [a], h => by
    have ha : a < 256 := h a (by simp)
    show b64decode [b64chr (a / 4), b64chr (a % 4 * 16), '=', '='] = some [a]
    simp only [b64decode]
    rw [if_pos (by simp), b64val_b64chr _ (by omega), b64val_b64chr _ (by omega)]
    show some [a / 4 * 4 + a % 4 * 16 / 16] = some [a]
    rw [show a / 4 * 4 + a % 4 * 16 / 16 = a by omega]
  | [a, b], h => by
    have ha : a < 256 := h a (by simp)
    have hb : b < 256 := h b (by simp)
    show b64decode [b64chr (a / 4), b64chr (a % 4 * 16 + b / 16), b64chr (b % 16 * 4), '='] =
      some [a, b]
    simp only [b64decode]
    rw [if_neg (fun hcon => b64chr_ne_pad _ hcon.1), if_pos (by simp),
      b64val_b64chr _ (by omega), b64val_b64chr _ (by omega), b64val_b64chr _ (by omega)]
    show some [a / 4 * 4 + (a % 4 * 16 + b / 16) / 16,
      (a % 4 * 16 + b / 16) % 16 * 16 + b % 16 * 4 / 4] = some [a, b]
    rw [show a / 4 * 4 + (a % 4 * 16 + b / 16) / 16 = a by omega,
      show (a % 4 * 16 + b / 16) % 16 * 16 + b % 16 * 4 / 4 = b by omega]
  | a :: b :: c :: rest, h => by
    have ha : a < 256 := h a (by simp)
    have hb : b < 256 := h b (by simp)
    have hc : c < 256 := h c (by simp)
    show b64decode (b64chr (a / 4) :: b64chr (a % 4 * 16 + b / 16) ::
      b64chr (b % 16 * 4 + c / 64) :: b64chr (c % 64) :: b64encode rest) =
      some (a :: b :: c :: rest)
    simp only [b64decode]
    rw [if_neg (fun hcon => b64chr_ne_pad _ hcon.1),
      if_neg (fun hcon => b64chr_ne_pad _ hcon.1),
      b64val_b64chr _ (by omega), b64val_b64chr _ (by omega),
      b64val_b64chr _ (by omega), b64val_b64chr _ (by omega),
      b64_roundtrip rest (fun x hx => h x (by simp [hx]))]
    show some (_ :: _ :: _ :: rest) = some (a :: b :: c :: rest)
    rw [show a / 4 * 4 + (a % 4 * 16 + b / 16) / 16 = a by omega,
      show (a % 4 * 16 + b / 16) % 16 * 16 + (b % 16 * 4 + c / 64) / 4 = b by omega,
      show (b % 16 * 4 + c / 64) % 4 * 64 + c % 64 = c by omega]

/-- Every character the base64 encoder emits is a base64 digit or the
padding character. -/
theorem b64encode_mem : ∀ (l : List Nat), ∀ c ∈ b64encode l, c ∈ B64_ALPHABET ∨ c = '='
  | [], c, hc => by simp [b64encode] at hc
  | [a], c, hc => by
    simp only [b64encode, List.mem_cons, List.not_mem_nil, or_false] at hc
    rcases hc with rfl | rfl | rfl | rfl
    · exact Or.inl (getD_mem_of_default_mem _ _ _ (by decide))
    · exact Or.inl (getD_mem_of_default_mem _ _ _ (by decide))
    · exact Or.inr rfl
    · exact Or.inr rfl
  | [a, b], c, hc => by
    simp only [b64encode, List.mem_cons, List.not_mem_nil, or_false] at hc
    rcases hc with rfl | rfl | rfl | rfl
    · exact Or.inl (getD_mem_of_default_mem _ _ _ (by decide))
    · exact Or.inl (getD_mem_of_default_mem _ _ _ (by decide))
    · exact Or.inl (getD_mem_of_default_mem _ _ _ (by decide))
    · exact Or.inr rfl
  | a :: b :: d :: rest, c, hc => by
    simp only [b64encode, List.mem_cons] at hc
    rcases hc with rfl | rfl | rfl | rfl | hmem
    · exact Or.inl (getD_mem_of_default_mem _ _ _ (by decide))
    · exact Or.inl (getD_mem_of_default_mem _ _ _ (by decide))
    · exact Or.inl (getD_mem_of_default_mem _ _ _ (by decide))
    · exact Or.inl (getD_mem_of_default_mem _ _ _ (by decide))
    · exact b64encode_mem rest c hmem

/-- Every character the base64 encoder emits is non-whitespace. -/
theorem b64encode_not_space (l : List Nat) (c : Char) (hc : c ∈ b64encode l) :
    pyIsSpace c = false := by
  rcases b64encode_mem l c hc with h | rfl
  · exact (b64_char_facts c h).1
  · decide

/-! ## Lemmas about UTF-8 -/

/-- On ASCII characters the UTF-8 encoding is one byte per code point. -/
theorem utf8EncodeList_ascii : ∀ (l : List Char), (∀ c ∈ l, c.toNat < 128) →
    ((l.map utf8EncodeChar).flatten = l.map Char.toNat)
  | [], _ => rfl
  | c :: cs, h => by
    have hc : c.toNat < 128 := h c (by simp)
    simp only [List.map_cons, List.flatten_cons]
    rw [utf8EncodeList_ascii cs (fun x hx => h x (by simp [hx]))]
    show utf8EncodeChar c ++ _ = c.toNat :: _
    unfold utf8EncodeChar
    rw [if_pos hc]
    rfl

/-- The UTF-8 decoder on ASCII bytes rebuilds one character per byte. -/
theorem utf8DecodeAux_ascii : ∀ (fuel : Nat) (l : List Nat), (∀ b ∈ l, b < 128) →
    l.length ≤ fuel → utf8DecodeAux fuel l = some (l.map Char.ofNat)
  | fuel, [], _, _ => by cases fuel <;> rfl
  | 0, b :: bs, _, hf => by simp at hf
  | fuel + 1, b :: bs, h, hf => by
    have hb : b < 128 := h b (by simp)
    simp only [utf8DecodeAux]
    rw [if_pos hb,
      utf8DecodeAux_ascii fuel bs (fun x hx => h x (by simp [hx])) (by simp at hf ⊢; omega)]
    rfl

/-- Decoding inverts encoding on printable-ASCII strings. -/
theorem utf8_roundtrip_ascii (s : String) (h : ∀ c ∈ s.data, c.toNat < 128) :
    utf8Decode (utf8Encode s) = some s := by
  unfold utf8Decode
  rw [show utf8Encode s = s.data.map Char.toNat from utf8EncodeList_ascii s.data h]
  rw [utf8DecodeAux_ascii _ _ ?hb le_rfl]
  case hb =>
    intro b hb
    obtain ⟨c, hc, rfl⟩ := List.mem_map.mp hb
    exact h c hc
  rw [List.map_map]
  have hid : (Char.ofNat ∘ Char.toNat) = id := funext Char.ofNat_toNat
  rw [hid, List.map_id]
  rfl

/-! ## Lemmas about the separator search -/

/-- A character absent from a string is not found. -/
theorem rfindIdx_none_of_not_mem (c : Char) : ∀ (l : List Char), c ∉ l → rfindIdx l c = none
  | [], _ => rfl
  | x :: xs, h => by
    simp only [rfindIdx]
    rw [rfindIdx_none_of_not_mem c xs (fun hm => h (by simp [hm]))]
    rw [if_neg (fun hx => h (by simp [hx]))]

/-- The last occurrence of `c` in `p ++ c :: q` with `c` absent from `q` is
at index `p.length`. -/
theorem rfindIdx_append_cons (c : Char) (q : List Char) (hq : c ∉ q) :
    ∀ (p : List Char), rfindIdx (p ++ c :: q) c = some p.length
  | [] => by
    simp only [List.nil_append, rfindIdx]
    rw [rfindIdx_none_of_not_mem c q hq]
    simp
  | x :: p => by
    simp only [List.cons_append, rfindIdx, List.append_eq]
    rw [rfindIdx_append_cons c q hq p]
    rfl

/-! ## Lemmas about the 32-bit length field -/

/-- Unpacking inverts packing below 2^32. -/
theorem be32_roundtrip (n : Nat) (h : n < 4294967296) : be32unpack (be32pack n) = n := by
  show n / 16777216 % 256 * 16777216 + n / 65536 % 256 * 65536 + n / 256 % 256 * 256 + n % 256 = n
  omega

/-- Packed length bytes are bytes. -/
theorem be32pack_lt (n : Nat) : ∀ b ∈ be32pack n, b < 256 := by
  intro b hb
  simp only [be32pack, List.mem_cons, List.not_mem_nil, or_false] at hb
  rcases hb with rfl | rfl | rfl | rfl <;> omega

/-- The packed length always has four bytes. -/
theorem be32pack_length (n : Nat) : (be32pack n).length = 4 := rfl

/-! ## Lemmas about the Format-A token shape -/

/-- The radix-31 length rendering of a natural number: every character is
non-whitespace and distinct from the separator, and the rendering is
non-empty. -/
theorem int2str_nat_facts (n : Nat) :
    (∀ c ∈ int2str (n : Int) ENCODED_LICENSE_LENGTH_BASE ENCODED_LICENSE_LENGTH_ALPHABET,
      pyIsSpace c = false ∧ c ≠ SEPARATOR) ∧
    int2str (n : Int) ENCODED_LICENSE_LENGTH_BASE ENCODED_LICENSE_LENGTH_ALPHABET ≠ [] := by
  rcases Nat.eq_zero_or_pos n with h0 | hpos
  · subst h0
    exact ⟨by decide, by decide⟩
  · have h3 : ¬((n : Int) = 0) := by omega
    have h4 : ¬((n : Int) < 0) := by omega
    unfold int2str iterDigitsList ENCODED_LICENSE_LENGTH_BASE
    rw [if_neg h3, if_neg h4, Int.toNat_natCast,
      iterDigitsPos_eq_digits 31 (by omega) _ n n le_rfl]
    constructor
    · intro c hc
      rw [List.mem_reverse] at hc
      obtain ⟨d, hd, rfl⟩ := List.mem_map.mp hc
      have hd31 : d < 31 := Nat.digits_lt_base (by omega) hd
      exact ⟨(alph31_facts d hd31).2.2.2.2, (alph31_facts d hd31).2.2.2.1⟩
    · have hne : Nat.digits 31 n ≠ [] := Nat.digits_ne_nil_iff_ne_zero.mpr (by omega)
      simp_all

/-- No character of an unwrapped token is whitespace. -/
theorem unwrapped_not_space (ops : ExternalOps) (T : String) :
    ∀ c ∈ unwrappedLicense ops T, pyIsSpace c = false := by
  intro c hc
  unfold unwrappedLicense at hc
  rcases List.mem_append.mp hc with h | h
  · exact b64encode_not_space _ c h
  · rcases List.mem_cons.mp h with rfl | h2
    · decide
    · rcases List.mem_append.mp h2 with h3 | h3
      · have hv : ∀ x ∈ versionText, pyIsSpace x = false := by decide
        exact hv c h3
      · exact ((int2str_nat_facts ((licenseBase64 ops T).length)).1 c h3).1

/-- Stripping the wrapped token recovers the unwrapped token. -/
theorem strip_encode (ops : ExternalOps) (T : String) :
    removeWhitespaces ((encodeLicense ops T).data) = unwrappedLicense ops T :=
  removeWhitespaces_wrapLicense _ (unwrapped_not_space ops T)

/-- The last separator of an unwrapped token sits right after the base64
payload. -/
theorem rfind_unwrapped (ops : ExternalOps) (T : String) :
    rfindIdx (unwrappedLicense ops T) SEPARATOR = some (licenseBase64 ops T).length := by
  unfold unwrappedLicense
  apply rfindIdx_append_cons
  intro hmem
  rcases List.mem_append.mp hmem with h | h
  · have hv : SEPARATOR ∉ versionText := by decide
    exact hv h
  · exact ((int2str_nat_facts ((licenseBase64 ops T).length)).1 _ h).2 rfl

/-- The structural phase of decoding accepts an unwrapped encoder token and
returns exactly its base64 payload. -/
theorem getLicenseContent_encode (ops : ExternalOps) (T : String) :
    getLicenseContent (unwrappedLicense ops T) = .ok (licenseBase64 ops T) := by
  have hvt : versionText = ['0', '2'] := by decide
  have hne : unwrappedLicense ops T ≠ [] := by
    unfold unwrappedLicense
    simp
  have hencne : encodedLength ops T ≠ [] :=
    (int2str_nat_facts ((licenseBase64 ops T).length)).2
  have hlen : (unwrappedLicense ops T).length =
      (licenseBase64 ops T).length + 3 + (encodedLength ops T).length := by
    unfold unwrappedLicense
    rw [List.length_append, List.length_cons, List.length_append, hvt]
    simp
    omega
  have hpos : ¬((unwrappedLicense ops T).length ≤
      (licenseBase64 ops T).length + VERSION_LENGTH) := by
    rw [hlen]
    have hp : 0 < (encodedLength ops T).length := List.length_pos.mpr hencne
    unfold VERSION_LENGTH
    omega
  have hdrop1 : (unwrappedLicense ops T).drop ((licenseBase64 ops T).length + 1) =
      versionText ++ encodedLength ops T := by
    unfold unwrappedLicense
    rw [List.drop_append]
    rfl
  have htake2 : (versionText ++ encodedLength ops T).take (VERSION_LENGTH - 1) =
      versionText := by
    apply List.take_left'
    rw [hvt]
    rfl
  have hver : parseIntBase versionText 10 = some 2 := by decide
  have hdrop3 : (unwrappedLicense ops T).drop
      ((licenseBase64 ops T).length + VERSION_LENGTH) = encodedLength ops T := by
    unfold unwrappedLicense
    show ((licenseBase64 ops T) ++
      SEPARATOR :: (versionText ++ encodedLength ops T)).drop
      ((licenseBase64 ops T).length + 3) = encodedLength ops T
    rw [List.drop_append, hvt]
    rfl
  have hparse := parse_int2str_31 ((licenseBase64 ops T).length)
  have htakepos : (unwrappedLicense ops T).take ((licenseBase64 ops T).length) =
      licenseBase64 ops T := by
    unfold unwrappedLicense
    exact List.take_left _ _
  unfold getLicenseContent
  rw [if_neg hne, rfind_unwrapped ops T]
  show (if (unwrappedLicense ops T).length ≤ (licenseBase64 ops T).length + VERSION_LENGTH
    then Except.error DecodeErr.incomplete else _) = _
  rw [if_neg hpos, hdrop1, htake2, hver]
  show (if ¬((2 : Int) = 1 ∨ (2 : Int) = 2) then Except.error DecodeErr.unsupportedVersion
    else _) = _
  rw [if_neg (fun hc => hc (Or.inr rfl)), hdrop3]
  show (match parseIntBase (encodedLength ops T) ENCODED_LICENSE_LENGTH_BASE with
    | none => Except.error DecodeErr.badLength
    | some licenseLength =>
      if ((licenseBase64 ops T).length : Int) ≠ licenseLength
      then Except.error DecodeErr.incorrectChecksum
      else Except.ok ((unwrappedLicense ops T).take (licenseBase64 ops T).length)) = _
  rw [show parseIntBase (encodedLength ops T) ENCODED_LICENSE_LENGTH_BASE =
    some (((licenseBase64 ops T).length : Nat) : Int) from hparse]
  show (if ((licenseBase64 ops T).length : Int) ≠ ((licenseBase64 ops T).length : Int)
    then Except.error DecodeErr.incorrectChecksum
    else Except.ok ((unwrappedLicense ops T).take (licenseBase64 ops T).length)) = _
  rw [if_neg (fun hc => hc rfl), htakepos]

/-- Splitting the decoded base64 payload of an encoder token yields the
compressed license bytes and the signature. -/
theorem split_encode (ops : ExternalOps) (T : String)
    (hcbytes : ∀ b ∈ ops.compress (utf8Encode T), b < 256)
    (hsbytes : ∀ b ∈ signatureBytes ops T, b < 256)
    (hlen : (licenseBytes ops T).length < 4294967296) :
    splitLicenseContent (licenseBase64 ops T) =
      .ok (licenseBytes ops T, signatureBytes ops T) := by
  have hbytes : ∀ b ∈ be32pack (licenseBytes ops T).length ++ licenseBytes ops T ++
      signatureBytes ops T, b < 256 := by
    intro b hb
    rcases List.mem_append.mp hb with h | h
    · rcases List.mem_append.mp h with h2 | h2
      · exact be32pack_lt _ b h2
      · unfold licenseBytes at h2
        rcases List.mem_append.mp h2 with h3 | h3
        · simp only [LICENSE_PREFIX_BYTES, List.mem_cons, List.not_mem_nil, or_false] at h3
          rcases h3 with rfl | rfl | rfl | rfl | rfl <;> omega
        · exact hcbytes b h3
    · exact hsbytes b h
  unfold splitLicenseContent licenseBase64
  rw [b64_roundtrip _ hbytes]
  have hlen4 : ¬((be32pack (licenseBytes ops T).length ++ licenseBytes ops T ++
      signatureBytes ops T).length < 4) := by
    rw [List.length_append, List.length_append, be32pack_length]
    omega
  show (if (be32pack (licenseBytes ops T).length ++ licenseBytes ops T ++
      signatureBytes ops T).length < 4 then Except.error DecodeErr.structFail else _) = _
  rw [if_neg hlen4]
  have happ : be32pack (licenseBytes ops T).length ++ licenseBytes ops T ++
      signatureBytes ops T =
      be32pack (licenseBytes ops T).length ++ (licenseBytes ops T ++ signatureBytes ops T) :=
    List.append_assoc _ _ _
  show Except.ok
    (((be32pack (licenseBytes ops T).length ++ licenseBytes ops T ++
        signatureBytes ops T).drop 4).take
      (be32unpack ((be32pack (licenseBytes ops T).length ++ licenseBytes ops T ++
        signatureBytes ops T).take 4)),
     ((be32pack (licenseBytes ops T).length ++ licenseBytes ops T ++
        signatureBytes ops T).drop 4).drop
      (be32unpack ((be32pack (licenseBytes ops T).length ++ licenseBytes ops T ++
        signatureBytes ops T).take 4))) = _
  rw [happ, List.take_left' (be32pack_length _), List.drop_left' (be32pack_length _),
    be32_roundtrip _ hlen, List.take_left, List.drop_left]

/-- C1: decoding an encoded token with verification enabled and the
matching keypair returns exactly the original printable-ASCII license text
with `verified = true`.  The compression and signature collaborators are
assumed to satisfy their boundary contracts (spec section 6): decompression
inverts compression, both emit bytes, the signature over the payload digest
verifies, and the payload fits the 4-byte length field. -/
theorem claim1_round_trip (ops : ExternalOps) (T : String)
    (hascii : ∀ c ∈ T.data, 32 ≤ c.toNat ∧ c.toNat ≤ 126)
    (hcomp : ops.decompress (ops.compress (utf8Encode T)) = some (utf8Encode T))
    (hcbytes : ∀ b ∈ ops.compress (utf8Encode T), b < 256)
    (hsbytes : ∀ b ∈ signatureBytes ops T, b < 256)
    (hverify : ops.verify (ops.sha1 (licenseBytes ops T)) (signatureBytes ops T) = true)
    (hlen : (licenseBytes ops T).length < 4294967296) :
    decodeLicense ops true true (encodeLicense ops T) = .ok (T, some true) := by
  have hne : encodeLicense ops T ≠ "" := by
    unfold encodeLicense wrapLicense
    intro hemp
    have hdata : (joinNL (wrapChunks (unwrappedLicense ops T)) ++ ['\n']) = [] :=
      congrArg String.data hemp
    simp at hdata
  have e1 : getLicenseContent (removeWhitespaces (encodeLicense ops T).data) =
      .ok (licenseBase64 ops T) := by
    rw [strip_encode]
    exact getLicenseContent_encode ops T
  have e2 := split_encode ops T hcbytes hsbytes hlen
  have e3 : (licenseBytes ops T).drop LICENSE_PREFIX_BYTES.length =
      ops.compress (utf8Encode T) := List.drop_left _ _
  have e4 : utf8Decode (utf8Encode T) = some T :=
    utf8_roundtrip_ascii T (fun c hc => by
      have := hascii c hc
      omega)
  unfold decodeLicense
  rw [if_neg hne]
  simp only [e1, e2, e3, hcomp, e4, hverify, Bool.and_self, if_true]

/-- Witness for C1: the full pipeline evaluated at a concrete license text
with the degenerate collaborator bundle. -/
theorem claim1_round_trip_witness :
    decodeLicense trivialOps true true (encodeLicense trivialOps ("License")) =
      .ok (("License"), some true) :=
  claim1_round_trip trivialOps ("License") (by decide) rfl (by decide) (by decide) rfl
    (by decide)

/-- C2: the radix-31 suffix after the two version digits of every encoder
token decodes to the character index of the last separator in the
whitespace-stripped token (which is the base64 character count the encoder
wrote), and the structural phase of decoding fails with the checksum error
whenever the decoded suffix differs from the separator position. -/
theorem claim2_checksum_invariant :
    (∀ (ops : ExternalOps) (T : String),
      rfindIdx (removeWhitespaces ((encodeLicense ops T).data)) SEPARATOR =
        some ((licenseBase64 ops T).length) ∧
      parseIntBase ((removeWhitespaces ((encodeLicense ops T).data)).drop
        ((licenseBase64 ops T).length + VERSION_LENGTH)) ENCODED_LICENSE_LENGTH_BASE =
        some (((licenseBase64 ops T).length : Int))) ∧
    (∀ (t : List Char) (pos : Nat) (v n : Int),
      rfindIdx t SEPARATOR = some pos →
      ¬(t.length ≤ pos + VERSION_LENGTH) →
      parseIntBase ((t.drop (pos + 1)).take (VERSION_LENGTH - 1)) 10 = some v →
      (v = 1 ∨ v = 2) →
      parseIntBase (t.drop (pos + VERSION_LENGTH)) ENCODED_LICENSE_LENGTH_BASE = some n →
      (pos : Int) ≠ n →
      getLicenseContent t = .error DecodeErr.incorrectChecksum) := by
  constructor
  · intro ops T
    rw [strip_encode]
    refine ⟨rfind_unwrapped ops T, ?_⟩
    have hvt : versionText = ['0', '2'] := by decide
    have hdrop3 : (unwrappedLicense ops T).drop
        ((licenseBase64 ops T).length + VERSION_LENGTH) = encodedLength ops T := by
      unfold unwrappedLicense
      show (licenseBase64 ops T ++ SEPARATOR :: (versionText ++ encodedLength ops T)).drop
        ((licenseBase64 ops T).length + 3) = encodedLength ops T
      rw [List.drop_append, hvt]
      rfl
    rw [hdrop3]
    exact parse_int2str_31 _
  · intro t pos v n hrf hlen hver hv12 hparse hne
    have htne : t ≠ [] := by
      intro hemp
      rw [hemp] at hrf
      exact absurd hrf (by simp [rfindIdx])
    unfold getLicenseContent
    rw [if_neg htne, hrf]
    show (if t.length ≤ pos + VERSION_LENGTH then Except.error DecodeErr.incomplete else _) = _
    rw [if_neg hlen, hver]
    show (if ¬(v = 1 ∨ v = 2) then Except.error DecodeErr.unsupportedVersion else _) = _
    rw [if_neg (fun hc => hc hv12), hparse]
    show (if (pos : Int) ≠ n then Except.error DecodeErr.incorrectChecksum else _) = _
    rw [if_pos hne]

/-- Witness for C2: a token whose radix-31 suffix (`M`, value 22) differs
from its separator position 4 is rejected with the checksum error. -/
theorem claim2_checksum_invariant_witness :
    getLicenseContent (("AAAAX02M").data) = .error DecodeErr.incorrectChecksum :=
  claim2_checksum_invariant.2 (("AAAAX02M").data) 4 2 22 (by decide) (by decide) (by decide)
    (by decide) (by decide) (by decide)

/-- C5: a token whose two characters after the separator parse to an
integer outside the set of valid versions is rejected with the
unsupported-version error; the encoder always emits version 2 (the token is
the base64 payload, the separator, the digits `02`, and the length
suffix). -/
theorem claim5_version_gate :
    (∀ (t : List Char) (pos : Nat) (v : Int),
      rfindIdx t SEPARATOR = some pos →
      ¬(t.length ≤ pos + VERSION_LENGTH) →
      parseIntBase ((t.drop (pos + 1)).take (VERSION_LENGTH - 1)) 10 = some v →
      ¬(v = 1 ∨ v = 2) →
      getLicenseContent t = .error DecodeErr.unsupportedVersion) ∧
    versionText = ['0', '2'] ∧ VERSION_NUMBER = 2 ∧
    (∀ (ops : ExternalOps) (T : String),
      unwrappedLicense ops T =
        licenseBase64 ops T ++ SEPARATOR :: ('0' :: '2' :: encodedLength ops T)) := by
  refine ⟨?_, by decide, rfl, ?_⟩
  · intro t pos v hrf hlen hver hnv
    have htne : t ≠ [] := by
      intro hemp
      rw [hemp] at hrf
      exact absurd hrf (by simp [rfindIdx])
    unfold getLicenseContent
    rw [if_neg htne, hrf]
    show (if t.length ≤ pos + VERSION_LENGTH then Except.error DecodeErr.incomplete else _) = _
    rw [if_neg hlen, hver]
    show (if ¬(v = 1 ∨ v = 2) then Except.error DecodeErr.unsupportedVersion else _) = _
    rw [if_pos hnv]
  · intro ops T
    unfold unwrappedLicense
    rw [show versionText = ['0', '2'] from by decide]
    rfl

/-- Witness for C5: version digits `05` are rejected. -/
theorem claim5_version_gate_witness :
    getLicenseContent (("AAX05z").data) = .error DecodeErr.unsupportedVersion :=
  claim5_version_gate.1 (("AAX05z").data) 2 5 (by decide) (by decide) (by decide) (by decide)

/-- C6 counterexample: the token `AAX02` has exactly 2 characters after its
last separator, so under the claim it should proceed past the separator
checks; the decoder instead rejects it as incomplete (the code requires at
least `VERSION_LENGTH = 3` characters after the separator). -/
theorem claim6_counterexample :
    getLicenseContent (("AAX02").data) = .error DecodeErr.incomplete := rfl

/-- C6 (amended): the separator checks of `_get_license_content` fail
exactly when the separator is absent (including the empty token) or fewer
than 3 characters follow the last separator; tokens with at least 3
characters after the last separator proceed past these checks. -/
theorem claim6_separator_gate (t : List Char) :
    (getLicenseContent t = .error DecodeErr.noContent ∨
     getLicenseContent t = .error DecodeErr.noSeparator ∨
     getLicenseContent t = .error DecodeErr.incomplete) ↔
    (rfindIdx t SEPARATOR = none ∨
     ∃ pos, rfindIdx t SEPARATOR = some pos ∧ t.length ≤ pos + VERSION_LENGTH) := by
  by_cases htne : t = []
  · subst htne
    simp [getLicenseContent, rfindIdx]
  · cases hrf : rfindIdx t SEPARATOR with
    | none =>
      have hgl : getLicenseContent t = .error DecodeErr.noSeparator := by
        unfold getLicenseContent
        rw [if_neg htne, hrf]
      rw [hgl]
      simp
    | some pos =>
      by_cases hlen : t.length ≤ pos + VERSION_LENGTH
      · have hgl : getLicenseContent t = .error DecodeErr.incomplete := by
          unfold getLicenseContent
          rw [if_neg htne, hrf]
          show (if t.length ≤ pos + VERSION_LENGTH then Except.error DecodeErr.incomplete
            else _) = _
          rw [if_pos hlen]
        rw [hgl]
        constructor
        · intro _
          exact Or.inr ⟨pos, rfl, hlen⟩
        · intro _
          exact Or.inr (Or.inr rfl)
      · have hgl : getLicenseContent t =
            (match parseIntBase ((t.drop (pos + 1)).take (VERSION_LENGTH - 1)) 10 with
             | none => Except.error DecodeErr.badVersion
             | some version =>
               if ¬(version = 1 ∨ version = 2) then Except.error DecodeErr.unsupportedVersion
               else
                 match parseIntBase (t.drop (pos + VERSION_LENGTH))
                     ENCODED_LICENSE_LENGTH_BASE with
                 | none => Except.error DecodeErr.badLength
                 | some licenseLength =>
                   if (pos : Int) ≠ licenseLength then Except.error DecodeErr.incorrectChecksum
                   else Except.ok (t.take pos)) := by
          unfold getLicenseContent
          rw [if_neg htne, hrf]
          show (if t.length ≤ pos + VERSION_LENGTH then Except.error DecodeErr.incomplete
            else _) = _
          rw [if_neg hlen]
        constructor
        · intro hL
          exfalso
          rw [hgl] at hL
          rcases hL with h | h | h <;> (repeat' split at h) <;> simp_all
        · intro hR
          exfalso
          rcases hR with h | ⟨pos2, hp, hl⟩
          · exact Option.noConfusion h
          · rw [Option.some.injEq] at hp
            subst hp
            exact hlen hl

/-! ## Lemmas about the Format-B key derivation -/

/-- Unfolding one replacement field when its lookup succeeds. -/
theorem pyFormat_field_cons (f : String) (rest : List FmtItem)
    (lookup : String → Option PyVal) (v : PyVal) (h : lookup f = some v) :
    pyFormat (.field f :: rest) lookup = (pyFormat rest lookup).map (fun t => pyStr v ++ t) := by
  simp only [pyFormat, h]

/-- Formatting fails on the missing key when a referenced field is
absent. -/
theorem pyFormat_missing : ∀ (items : List FmtItem) (lookup : String → Option PyVal),
    (∃ f, FmtItem.field f ∈ items ∧ lookup f = none) →
    ∃ k, pyFormat items lookup = .error k ∧ lookup k = none
  | [], _, ⟨_, hf, _⟩ => absurd hf (by simp)
  | .lit s :: rest, lookup, ⟨f, hf, hnone⟩ => by
    have hf2 : FmtItem.field f ∈ rest := by
      rcases List.mem_cons.mp hf with h | h
      · exact absurd h (by simp)
      · exact h
    obtain ⟨k, hk, hkn⟩ := pyFormat_missing rest lookup ⟨f, hf2, hnone⟩
    refine ⟨k, ?_, hkn⟩
    simp only [pyFormat, hk]
    rfl
  | .field g :: rest, lookup, ⟨f, hf, hnone⟩ => by
    cases hg : lookup g with
    | none => exact ⟨g, by simp only [pyFormat, hg], hg⟩
    | some v =>
      have hf2 : FmtItem.field f ∈ rest := by
        rcases List.mem_cons.mp hf with h | h
        · exfalso
          have hfg : f = g := by
            cases h
            rfl
          rw [hfg, hg] at hnone
          exact Option.noConfusion hnone
        · exact h
      obtain ⟨k, hk, hkn⟩ := pyFormat_missing rest lookup ⟨f, hf2, hnone⟩
      refine ⟨k, ?_, hkn⟩
      simp only [pyFormat, hg, hk]
      rfl

/-- C7 counterexample: with the five template-referenced fields present but
`quantity_nodes` absent, key derivation succeeds (the code defaults the
node count to 0 via `variables.get('quantity_nodes', 0)`), contradicting
the claim that a missing `quantity_nodes` aborts it. -/
theorem claim7_counterexample : exceptIsOk (calculateLicenseKey varsNoNodes) = true := rfl

/-- A format call on a dictionary that does not itself bind `node_part`
passes the duplicate-keyword check and reduces to formatting with the
merged keyword dictionary. -/
theorem gliffyFormatCall_no_collision (items : List FmtItem) (vars : String → Option PyVal)
    (hnp : vars ("node_part") = none) :
    gliffyFormatCall items vars =
      (match pyFormat items (gliffyKeyLookup vars) with
       | .error k => .error (.missingKey k)
       | .ok s => .ok s) := by
  unfold gliffyFormatCall
  rw [if_neg (by rw [hnp]; simp)]

/-- C7 (amended): for every dictionary that does not itself bind
`node_part`, a missing `quantity_users`, `license_type`, `name`,
`organisation` or `expiration_date` makes key derivation abort with the
missing-key (KeyError / MissingFieldError-class) failure instead of
producing a key.  A missing `quantity_nodes` alone does not abort (it
defaults to 0), and a dictionary that does bind `node_part` aborts with an
uncaught duplicate-keyword TypeError before any formatting, not with this
error class. -/
theorem claim7_missing_field (vars : String → Option PyVal)
    (hnp : vars ("node_part") = none)
    (hmiss : vars ("quantity_users") = none ∨ vars ("license_type") = none ∨
      vars ("name") = none ∨ vars ("organisation") = none ∨
      vars ("expiration_date") = none) :
    ∃ k, calculateLicenseKey vars = .error (.missingKey k) := by
  obtain ⟨f, hfmem, hfno, hfne⟩ : ∃ f, FmtItem.field f ∈ KEY_TEMPLATE_1 ∧ vars f = none ∧
      ¬(f = "node_part") := by
    rcases hmiss with h | h | h | h | h
    · exact ⟨"quantity_users", by decide, h, by decide⟩
    · exact ⟨"license_type", by decide, h, by decide⟩
    · exact ⟨"name", by decide, h, by decide⟩
    · exact ⟨"organisation", by decide, h, by decide⟩
    · exact ⟨"expiration_date", by decide, h, by decide⟩
  have hlkno : gliffyKeyLookup vars f = none := by
    unfold gliffyKeyLookup
    rw [if_neg hfne]
    exact hfno
  obtain ⟨k, hk, _⟩ := pyFormat_missing KEY_TEMPLATE_1 (gliffyKeyLookup vars) ⟨f, hfmem, hlkno⟩
  refine ⟨k, ?_⟩
  unfold calculateLicenseKey
  rw [gliffyFormatCall_no_collision _ _ hnp, hk]
  rfl

/-- Witness for C7 (amended): the empty dictionary binds nothing, so it
misses every field and key derivation fails with a missing-key error. -/
theorem claim7_missing_field_witness :
    ∃ k, calculateLicenseKey varsEmpty = .error (.missingKey k) :=
  claim7_missing_field varsEmpty rfl (Or.inl rfl)

/-- C4 counterexample: a dictionary carrying all six license fields but
also binding `node_part` itself (reachable via `-v node_part=boom`).  The
claim asserts the Format-B license key is the dash-joined hash quadruple,
but key derivation produces no key at all: the source call
`t.format(node_part=node_part, **variables)` raises the duplicate-keyword
TypeError before any formatting. -/
theorem claim4_counterexample :
    calculateLicenseKey varsWithNodePart = .error KeyDeriveErr.duplicateNodePart := rfl

/-- C4 (amended): with all six fields present (and an integer node count)
and the dictionary not itself binding `node_part`, the Format-B license key
is the four RS hashes of the four fixed field-order permutations joined
with dashes, where the node part is the decimal string of the node count
when it exceeds 1 and empty otherwise.  (A dictionary binding `node_part`
aborts with an uncaught duplicate-keyword TypeError and yields no key.) -/
theorem claim4_license_key (vars : String → Option PyVal) (u lt nm org ed : PyVal) (q : Int)
    (hnp0 : vars ("node_part") = none)
    (hu : vars ("quantity_users") = some u)
    (hlt : vars ("license_type") = some lt)
    (hnm : vars ("name") = some nm)
    (horg : vars ("organisation") = some org)
    (hed : vars ("expiration_date") = some ed)
    (hq : vars ("quantity_nodes") = some (.intV q)) :
    calculateLicenseKey vars = .ok (String.intercalate ("-")
      [rs_hash (pyStr u ++ pyStr lt ++ pyStr nm ++ pyStr org ++ pyStr ed ++
         (if 1 < q then toString q else "")),
       rs_hash (pyStr org ++ pyStr u ++ (if 1 < q then toString q else "") ++ pyStr lt ++
         pyStr ed ++ pyStr nm),
       rs_hash ((if 1 < q then toString q else "") ++ pyStr org ++ pyStr nm ++ pyStr u ++
         pyStr lt ++ pyStr ed),
       rs_hash (pyStr nm ++ pyStr ed ++ (if 1 < q then toString q else "") ++ pyStr org ++
         pyStr lt ++ pyStr u)]) := by
  have hnp : gliffyNodePart vars = (if 1 < q then toString q else "") := by
    unfold gliffyNodePart
    rw [hq]
    show (if pyGtOne (PyVal.intV q) then pyStr (PyVal.intV q) else "") = _
    by_cases h : 1 < q
    · rw [if_pos (by simpa [pyGtOne] using h), if_pos h]
      rfl
    · rw [if_neg (by simpa [pyGtOne] using h), if_neg h]
  have hlk : ∀ (f : String) (v : PyVal), ¬(f = "node_part") → vars f = some v →
      gliffyKeyLookup vars f = some v := by
    intro f v hne hv
    unfold gliffyKeyLookup
    rw [if_neg hne]
    exact hv
  have h1 := hlk _ _ (by decide) hu
  have h2 := hlk _ _ (by decide) hlt
  have h3 := hlk _ _ (by decide) hnm
  have h4 := hlk _ _ (by decide) horg
  have h5 := hlk _ _ (by decide) hed
  have hnp2 : gliffyKeyLookup vars ("node_part") = some (.strV (gliffyNodePart vars)) := by
    unfold gliffyKeyLookup
    rw [if_pos rfl]
  have e1 : pyFormat KEY_TEMPLATE_1 (gliffyKeyLookup vars) =
      .ok (pyStr u ++ (pyStr lt ++ (pyStr nm ++ (pyStr org ++ (pyStr ed ++
        (gliffyNodePart vars ++ "")))))) := by
    unfold KEY_TEMPLATE_1
    rw [pyFormat_field_cons _ _ _ _ h1, pyFormat_field_cons _ _ _ _ h2,
      pyFormat_field_cons _ _ _ _ h3, pyFormat_field_cons _ _ _ _ h4,
      pyFormat_field_cons _ _ _ _ h5, pyFormat_field_cons _ _ _ _ hnp2]
    rfl
  have e2 : pyFormat KEY_TEMPLATE_2 (gliffyKeyLookup vars) =
      .ok (pyStr org ++ (pyStr u ++ (gliffyNodePart vars ++ (pyStr lt ++ (pyStr ed ++
        (pyStr nm ++ "")))))) := by
    unfold KEY_TEMPLATE_2
    rw [pyFormat_field_cons _ _ _ _ h4, pyFormat_field_cons _ _ _ _ h1,
      pyFormat_field_cons _ _ _ _ hnp2, pyFormat_field_cons _ _ _ _ h2,
      pyFormat_field_cons _ _ _ _ h5, pyFormat_field_cons _ _ _ _ h3]
    rfl
  have e3 : pyFormat KEY_TEMPLATE_3 (gliffyKeyLookup vars) =
      .ok (gliffyNodePart vars ++ (pyStr org ++ (pyStr nm ++ (pyStr u ++ (pyStr lt ++
        (pyStr ed ++ "")))))) := by
    unfold KEY_TEMPLATE_3
    rw [pyFormat_field_cons _ _ _ _ hnp2, pyFormat_field_cons _ _ _ _ h4,
      pyFormat_field_cons _ _ _ _ h3, pyFormat_field_cons _ _ _ _ h1,
      pyFormat_field_cons _ _ _ _ h2, pyFormat_field_cons _ _ _ _ h5]
    rfl
  have e4 : pyFormat KEY_TEMPLATE_4 (gliffyKeyLookup vars) =
      .ok (pyStr nm ++ (pyStr ed ++ (gliffyNodePart vars ++ (pyStr org ++ (pyStr lt ++
        (pyStr u ++ "")))))) := by
    unfold KEY_TEMPLATE_4
    rw [pyFormat_field_cons _ _ _ _ h3, pyFormat_field_cons _ _ _ _ h5,
      pyFormat_field_cons _ _ _ _ hnp2, pyFormat_field_cons _ _ _ _ h4,
      pyFormat_field_cons _ _ _ _ h2, pyFormat_field_cons _ _ _ _ h1]
    rfl
  unfold calculateLicenseKey
  rw [gliffyFormatCall_no_collision _ _ hnp0, gliffyFormatCall_no_collision _ _ hnp0,
    gliffyFormatCall_no_collision _ _ hnp0, gliffyFormatCall_no_collision _ _ hnp0,
    e1, e2, e3, e4, hnp]
  show Except.ok (String.intercalate ("-") [rs_hash _, rs_hash _, rs_hash _, rs_hash _]) = _
  simp only [String.append_assoc, String.append_empty]

/-- Witness for C4 (amended): the key of a complete concrete dictionary
with 5 nodes and no `node_part` binding of its own. -/
theorem claim4_license_key_witness :
    calculateLicenseKey varsComplete = .ok (String.intercalate ("-")
      [rs_hash (pyStr (.intV (-1)) ++ pyStr (.strV ("COMMERCIAL_ENTERPRISE")) ++
         pyStr (.strV ("Gliffy Confluence Plugin")) ++ pyStr (.strV ("Acme Corp")) ++
         pyStr (.strV ("12/31/32")) ++ (if (1 : Int) < 5 then toString (5 : Int) else "")),
       rs_hash (pyStr (.strV ("Acme Corp")) ++ pyStr (.intV (-1)) ++
         (if (1 : Int) < 5 then toString (5 : Int) else "") ++
         pyStr (.strV ("COMMERCIAL_ENTERPRISE")) ++
         pyStr (.strV ("12/31/32")) ++ pyStr (.strV ("Gliffy Confluence Plugin"))),
       rs_hash ((if (1 : Int) < 5 then toString (5 : Int) else "") ++
         pyStr (.strV ("Acme Corp")) ++
         pyStr (.strV ("Gliffy Confluence Plugin")) ++ pyStr (.intV (-1)) ++
         pyStr (.strV ("COMMERCIAL_ENTERPRISE")) ++ pyStr (.strV ("12/31/32"))),
       rs_hash (pyStr (.strV ("Gliffy Confluence Plugin")) ++ pyStr (.strV ("12/31/32")) ++
         (if (1 : Int) < 5 then toString (5 : Int) else "") ++ pyStr (.strV ("Acme Corp")) ++
         pyStr (.strV ("COMMERCIAL_ENTERPRISE")) ++ pyStr (.intV (-1)))]) :=
  claim4_license_key varsComplete _ _ _ _ _ 5 (by decide) (by decide) (by decide) (by decide)
    (by decide) (by decide) (by decide)

/-- The `or`-chain of `generate` always selects the built-in template,
because `LICENSE_TEMPLATE` is a non-empty string literal. -/
theorem selectTemplate_const (t : Option String) : selectTemplate t = LICENSE_TEMPLATE := by
  unfold selectTemplate
  rw [if_pos (by decide)]

/-- C10: two `generate` calls that differ only in the caller-supplied
template produce identical results — the built-in `LICENSE_TEMPLATE` is
non-empty and is always selected in preference, so `custom_template` never
influences the output. -/
theorem claim10_custom_template_ignored (product organisation : String)
    (customVariables : List (String × PyVal)) (t1 t2 : Option String) :
    gliffyGenerate product organisation customVariables t1 =
      gliffyGenerate product organisation customVariables t2 := by
  unfold gliffyGenerate
  rw [selectTemplate_const t1, selectTemplate_const t2]
